import Mathlib

/-!
Verification of the QualityForceAI execution-orchestrator specification
against the repository's code. UI components under
`src/frontend/src/pages` are embedded directly from the TypeScript
source; the orchestrator backend (Execution Manager, Registry, Batch
Orchestrator) is not part of the repository snapshot, so those
operations are modelled from the specification text (each such
definition is marked `Modelled from the spec:`).
-/

namespace QualityForce

/-! ## Execution status (spec §4.2, frontend `StatusBadge` maps) -/

/-- The execution status values. These are exactly the five keys of the
`statusClasses` / `statusIcons` maps in `Dashboard.tsx` and
`ExecutionMonitor` (`pending`, `running`, `completed`, `failed`,
`cancelled`) and the five states of spec §4.2. -/
inductive Status where
  | pending
  | running
  | completed
  | failed
  | cancelled
deriving DecidableEq, Repr

/-- Terminal states per spec §4.2: COMPLETED, FAILED, CANCELLED. -/
def Status.terminal : Status → Bool
  | .completed => true
  | .failed => true
  | .cancelled => true
  | _ => false

/-- Forward rank of a status along the lifecycle:
PENDING before RUNNING before any terminal state. -/
def Status.rank : Status → Nat
  | .pending => 0
  | .running => 1
  | _ => 2

/-- Modelled from the spec: the transition table of §4.2
(the state-machine code itself is not in the repository snapshot).
PENDING→RUNNING; RUNNING→COMPLETED; RUNNING→FAILED; RUNNING→CANCELLED;
nothing else. -/
def statusStep : Status → Status → Bool
  | .pending, .running => true
  | .running, .completed => true
  | .running, .failed => true
  | .running, .cancelled => true
  | _, _ => false

/-- An observation history of one execution's `status` field: between
two consecutive observations the status either stayed the same or took
one legal transition. -/
def validTrace : List Status → Bool
  | [] => true
  | [_] => true
  | a :: b :: rest => (a == b || statusStep a b) && validTrace (b :: rest)

/-! ## Concurrency gate (spec §4.3, §5) -/

/-- Count of executions currently in RUNNING state. -/
def countRunning (l : List Status) : Nat :=
  l.countP (fun s => s == Status.running)

/-- Modelled from the spec: one interleaving step of the orchestrator's
execution population (Execution Manager code is not in the repository
snapshot). `submit` adds a PENDING record; a PENDING record may enter
RUNNING only when a concurrency slot is free
(`countRunning < limit`, spec §4.3 concurrency gate); a RUNNING record
may reach any terminal state, releasing its slot. -/
inductive OrchStep (limit : Nat) : List Status → List Status → Prop where
  | submit (l : List Status) :
      OrchStep limit l (l ++ [Status.pending])
  | start (l₁ l₂ : List Status)
      (hgate : countRunning (l₁ ++ Status.pending :: l₂) < limit) :
      OrchStep limit (l₁ ++ Status.pending :: l₂) (l₁ ++ Status.running :: l₂)
  | finish (l₁ l₂ : List Status) (s : Status) (hterm : s.terminal = true) :
      OrchStep limit (l₁ ++ Status.running :: l₂) (l₁ ++ s :: l₂)

/-- States of the execution population reachable from process start
(no executions) under interleaved submissions, starts and finishes. -/
inductive Reach (limit : Nat) : List Status → Prop where
  | init : Reach limit []
  | step {l l' : List Status} : Reach limit l → OrchStep limit l l' → Reach limit l'

/-! ## Test-case results and derived counts (spec §3) -/

/-- Per-test-case status, spec §3 `TestCaseResult.status`
∈ {passed, failed, skipped, error}. -/
inductive TCStatus where
  | passed
  | failed
  | skipped
  | error
deriving DecidableEq, Repr

/-- One test-case result; fields beyond `status` are carried opaquely
(spec §3 `TestCaseResult`). -/
structure TestCaseResult where
  id : String
  name : String
  status : TCStatus
deriving DecidableEq, Repr

/-- Modelled from the spec: the derived-count fields of an
ExecutionRecord as produced when the pipeline records `test_cases`
(`total_tests = len(test_cases)`, the four counts partition
`test_cases` by `status`; spec §3 invariants — the backend code that
computes them is not in the repository snapshot). -/
structure ExecSummary where
  total_tests : Nat
  passed_tests : Nat
  failed_tests : Nat
  skipped_tests : Nat
  error_tests : Nat
deriving DecidableEq, Repr

/-- Modelled from the spec: derive the summary counts from a
`test_cases` sequence. -/
def mkSummary (tcs : List TestCaseResult) : ExecSummary where
  total_tests := tcs.length
  passed_tests := tcs.countP (fun t => t.status == TCStatus.passed)
  failed_tests := tcs.countP (fun t => t.status == TCStatus.failed)
  skipped_tests := tcs.countP (fun t => t.status == TCStatus.skipped)
  error_tests := tcs.countP (fun t => t.status == TCStatus.error)

/-! ## Execution records, submission and cancellation (spec §4.3) -/

/-- Modelled from the spec: the ExecutionRecord fields the lifecycle
claims need — `status` plus the cooperative cancellation flag checked
at stage boundaries (spec §4.3 `cancel`, §9 cancellation token); the
Execution Manager code is not in the repository snapshot. -/
structure ExecRecord where
  execution_id : String
  agent_type : String
  status : Status
  cancelRequested : Bool
  test_cases : List TestCaseResult
deriving DecidableEq, Repr

/-- Modelled from the spec: `cancel(execution_id)` on the record it
resolves to — "no-op if already terminal; otherwise sets a cooperative
flag observed at the next stage boundary" (spec §4.3). -/
def cancel (r : ExecRecord) : ExecRecord :=
  if r.status.terminal then r else { r with cancelRequested := true }

/-- Modelled from the spec: the pipeline as a list of remaining stages,
"each checking the cancellation flag before starting" (spec §4.3);
when the flag is observed at a stage boundary the pipeline stops and
the record transitions to CANCELLED; with no stages left the record
reaches COMPLETED. -/
def runPipeline (stages : List (ExecRecord → ExecRecord)) (r : ExecRecord) :
    ExecRecord :=
  match stages with
  | [] => if r.status.terminal then r else { r with status := Status.completed }
  | f :: rest =>
      if r.status.terminal then r
      else if r.cancelRequested then { r with status := Status.cancelled }
      else runPipeline rest (f r)

/-- Registry entries: `agent_type` keys registered with the Agent
Registry (spec §4.1). -/
structure Registry where
  entries : List (String × String)
deriving DecidableEq, Repr

/-- Modelled from the spec: `resolve(agent_type)` of the Agent Registry
(spec §4.1); `none` corresponds to the `UnknownAgentType` failure. -/
def Registry.resolve (reg : Registry) (agent_type : String) : Option String :=
  (reg.entries.find? (fun e => e.1 == agent_type)).map (fun e => e.2)

/-- The Result Store's execution-record map, keyed by execution id
(spec §6 Result Store contract). -/
structure Store where
  recs : List (String × ExecRecord)
deriving DecidableEq, Repr

/-- Submission-time errors (spec §7 error taxonomy). -/
inductive SubmitError where
  | unknownAgentType
deriving DecidableEq, Repr

/-- Modelled from the spec: `submit(agent_type, inputs)` of the
Execution Manager (spec §4.3) — fails immediately with
`UnknownAgentType` when the registry cannot resolve `agent_type`
(no record created); otherwise creates a PENDING record, stores it,
and returns the new identifier. -/
def submit (reg : Registry) (store : Store) (agent_type : String)
    (newId : String) : Except SubmitError String × Store :=
  match reg.resolve agent_type with
  | none => (Except.error SubmitError.unknownAgentType, store)
  | some _ =>
      let rec0 : ExecRecord :=
        { execution_id := newId, agent_type := agent_type
          status := Status.pending, cancelRequested := false, test_cases := [] }
      (Except.ok newId, { recs := store.recs ++ [(newId, rec0)] })

/-! ## Batch Orchestrator, sequential mode (spec §4.4) -/

/-- One batch member: an `(agent_type, inputs)` pair (inputs opaque). -/
structure BatchItem where
  agent_type : String
  inputs : List (String × String)
deriving DecidableEq, Repr

/-- Modelled from the spec: `execute_batch` with `parallel = false`
(spec §4.4) — items are submitted one at a time, each awaited to a
terminal state before the next is submitted; if an item terminates as
FAILED and `continue_on_failure = false`, submission of the remaining
items stops, and identifiers already produced are still returned.
`runOne` abstracts submitting one item and awaiting its terminal
state, yielding the execution id and the terminal status. -/
def executeBatchSeq (runOne : BatchItem → String × Status)
    (continue_on_failure : Bool) : List BatchItem → List (String × String)
  | [] => []
  | it :: rest =>
      (it.agent_type, (runOne it).1) ::
        (if (runOne it).2 == Status.failed && !continue_on_failure then []
         else executeBatchSeq runOne continue_on_failure rest)

/-! ## JavaScript string primitives

The frontend uses `String.prototype.trim`, `split(',')`, `startsWith`
and `.length`. They are modelled here over the character list of the
Lean string so that every definition evaluates by kernel reduction. -/

/-- JavaScript trim on a character list: drop whitespace from both ends. -/
def jsTrimL (cs : List Char) : List Char :=
  ((cs.dropWhile Char.isWhitespace).reverse.dropWhile Char.isWhitespace).reverse

/-- JavaScript `s.trim()`. -/
def jsTrim (s : String) : String :=
  String.mk (jsTrimL s.data)

/-- JavaScript `s.startsWith(p)`. -/
def jsStartsWith (s p : String) : Bool :=
  p.data.isPrefixOf s.data

/-- JavaScript `s.length` (character count). -/
def jsLength (s : String) : Nat :=
  s.data.length

/-- Splitting a character list at a separator character, JavaScript
`split` semantics: the empty string yields one empty segment, and
adjacent separators yield empty segments. -/
def jsSplitL (sep : Char) : List Char → List Char → List (List Char)
  | [], acc => [acc.reverse]
  | c :: rest, acc =>
      if c == sep then acc.reverse :: jsSplitL sep rest []
      else jsSplitL sep rest (c :: acc)

/-- JavaScript `s.split(',')`. -/
def jsSplitComma (s : String) : List String :=
  (jsSplitL ',' s.data []).map String.mk

/-! ## AgentMarketplace frontend
(`src/frontend/src/pages/AgentMarketplace.tsx`) -/

/-- A JavaScript value stored in an `AgentInput` field: a string or an
array of strings (the two value shapes `validateInputs` discriminates
with `typeof value === 'string'` / `Array.isArray(value)`). -/
inductive JValue where
  | str (s : String)
  | arr (xs : List String)
deriving DecidableEq, Repr

/-- The `AgentInput` record of the frontend: each field optional
(`undefined` when never entered). -/
structure AgentInput where
  source_code : Option String := none
  requirements_doc : Option String := none
  endpoints : Option (List String) := none
  frd : Option String := none
  brd : Option String := none
deriving DecidableEq, Repr

/-- The empty object `{}` used as the fallback `inputs[type] || {}`. -/
def emptyAgentInput : AgentInput := {}

/-- Dynamic field access `agentInputs[requiredInput as keyof AgentInput]`:
selects the named field; an unknown name is `undefined`. -/
def getField (ai : AgentInput) (name : String) : Option JValue :=
  if name == "source_code" then ai.source_code.map JValue.str
  else if name == "requirements_doc" then ai.requirements_doc.map JValue.str
  else if name == "endpoints" then ai.endpoints.map JValue.arr
  else if name == "frd" then ai.frd.map JValue.str
  else if name == "brd" then ai.brd.map JValue.str
  else none

/-- Catalog entry (`AgentMetadata` from the API): the fields
`validateInputs` consults. -/
structure AgentMetadata where
  agent_type : String
  required_inputs : List String
  optional_inputs : List String := []
deriving DecidableEq, Repr

/-- The required-input checks of `validateInputs`
(AgentMarketplace.tsx lines 67–80): `!value` (absent or empty string)
reports "is required"; a whitespace-only string reports
"cannot be empty"; an empty array reports
"must have at least one item"; otherwise no error.
The error key is  agentType ++ "_" ++ requiredInput. -/
def requiredError (agent_type r : String) : Option JValue → Option (String × String)
  | none => some (agent_type ++ "_" ++ r, r ++ " is required")
  | some (JValue.str s) =>
      if s == "" then some (agent_type ++ "_" ++ r, r ++ " is required")
      else if jsTrim s == "" then
        some (agent_type ++ "_" ++ r, r ++ " cannot be empty")
      else none
  | some (JValue.arr xs) =>
      if xs.isEmpty then
        some (agent_type ++ "_" ++ r, r ++ " must have at least one item")
      else none

/-- One entered endpoint fails the format check when it is truthy
(non-empty) and starts with neither "/" nor "http"
(AgentMarketplace.tsx lines 84–86). -/
def epBad (ep : String) : Bool :=
  !(ep == "") && !(jsStartsWith ep "/") && !(jsStartsWith ep "http")

/-- The endpoints-format check of `validateInputs`
(AgentMarketplace.tsx lines 83–91): the field is reported invalid when
the entered list is non-empty and its `epBad` filtrate is non-empty. -/
def endpointsFieldInvalid (eps : List String) : Bool :=
  decide (0 < eps.length) && decide (0 < (eps.filter epBad).length)

/-- All error entries `validateInputs` records for one selected agent:
the required-input errors in `required_inputs` order, then the
endpoints-format error (skipped when the `endpoints` field is
`undefined`). -/
def validateAgent (agent : AgentMetadata) (ai : AgentInput) :
    List (String × String) :=
  agent.required_inputs.filterMap
      (fun r => requiredError agent.agent_type r (getField ai r))
    ++ (match ai.endpoints with
        | none => []
        | some eps =>
            if endpointsFieldInvalid eps then
              [(agent.agent_type ++ "_endpoints",
                "Endpoints must start with / or http")]
            else [])

/-- The AgentMarketplace component state: the fetched agent catalog and
the `selectedAgents`, `inputs` and `errors` pieces of React state
(selection as an insertion-ordered list, the maps as association
lists). -/
structure MarketState where
  agents : List AgentMetadata
  selected : List String
  inputs : List (String × AgentInput)
  errors : List (String × String)
deriving Repr

/-- The lookup `inputs[agentType] || {}`. -/
def MarketState.inputsFor (st : MarketState) (agent_type : String) : AgentInput :=
  ((st.inputs.find? (fun p => p.1 == agent_type)).map Prod.snd).getD emptyAgentInput

/-- The function `validateInputs` (AgentMarketplace.tsx lines 56–96): iterates the
selected agents, skipping agent types absent from the catalog, and
collects the error entries; the function returns true exactly when no
error was recorded. -/
def validateInputs (st : MarketState) : List (String × String) :=
  st.selected.flatMap (fun t =>
    match st.agents.find? (fun a => a.agent_type == t) with
    | none => []
    | some agent => validateAgent agent (st.inputsFor t))

/-- What `handleExecute` does: an early-return toast when no agent is
selected, a toast plus recorded errors when validation fails, or the
call to `executeMutation.mutate` carrying the requests
`{agent_type, inputs: inputs[type] || {}}` in selection order. -/
inductive Outcome where
  | toastNoAgents
  | toastValidation (errors : List (String × String))
  | submitRequests (requests : List (String × AgentInput))
deriving DecidableEq, Repr

/-- Whether the outcome submits execution requests. -/
def Outcome.isSubmit : Outcome → Bool
  | .submitRequests _ => true
  | _ => false

/-- The function `handleExecute` (AgentMarketplace.tsx lines 120–132). -/
def handleExecute (st : MarketState) : Outcome :=
  if st.selected.isEmpty then Outcome.toastNoAgents
  else
    let errs := validateInputs st
    if errs.isEmpty then
      Outcome.submitRequests (st.selected.map (fun t => (t, st.inputsFor t)))
    else Outcome.toastValidation errs

/-- The function `toggleAgent` (AgentMarketplace.tsx lines 98–118): deselecting an
agent removes it from the selection, deletes its `inputs` entry, and
deletes every `errors` entry whose key starts with the agent type;
selecting appends it. -/
def toggleAgent (st : MarketState) (agent_type : String) : MarketState :=
  if st.selected.contains agent_type then
    { st with
      selected := st.selected.filter (fun t => !(t == agent_type))
      inputs := st.inputs.filter (fun p => !(p.1 == agent_type))
      errors := st.errors.filter (fun p => !(jsStartsWith p.1 agent_type)) }
  else { st with selected := st.selected ++ [agent_type] }

/-- The endpoints parser of the earlier AgentMarketplace version
(src/unnamed/part_000 lines 218–224):
`e.target.value.split(',').map(s => s.trim())`. -/
def parseEndpointsOld (s : String) : List String :=
  (jsSplitComma s).map (fun t => jsTrim t)

/-- The endpoints parser of the current AgentMarketplace version
(AgentMarketplace.tsx lines 445–448):
`e.target.value.split(',').map(s => s.trim()).filter(s => s.length > 0)`. -/
def parseEndpointsNew (s : String) : List String :=
  ((jsSplitComma s).map (fun t => jsTrim t)).filter (fun t => decide (0 < jsLength t))

/-! ## Concrete marketplace states used in witnesses and
counterexamples -/

/-- A marketplace state with one catalog agent and nothing selected. -/
def noSelectionState : MarketState :=
  { agents := [{ agent_type := "api_testing", required_inputs := ["endpoints"] }]
    selected := []
    inputs := []
    errors := [] }

/-- A state whose one selected agent is missing its required
`endpoints` input (entered as the empty array). -/
def badInputState : MarketState :=
  { agents := [{ agent_type := "api_testing", required_inputs := ["endpoints"] }]
    selected := ["api_testing"]
    inputs := [("api_testing", { endpoints := some [] })]
    errors := [] }

/-- A state whose one selected agent has its required `endpoints`
input present, non-empty and well-formed. -/
def goodInputState : MarketState :=
  { agents := [{ agent_type := "api_testing", required_inputs := ["endpoints"] }]
    selected := ["api_testing"]
    inputs := [("api_testing", { endpoints := some ["/api/users"] })]
    errors := [] }

/-- A state holding two selected agents whose types share a prefix,
with a validation error recorded for the second one. -/
def prefixErrorState : MarketState :=
  { agents := []
    selected := ["api", "api2"]
    inputs := [("api", {}), ("api2", {})]
    errors := [("api2_endpoints", "Endpoints must start with / or http")] }

/-- A state holding two selected agents with unrelated types, inputs
and errors for both. -/
def twoAgentState : MarketState :=
  { agents := []
    selected := ["api_testing", "security_testing"]
    inputs := [("api_testing", { endpoints := some ["/a"] }),
               ("security_testing", { source_code := some "code" })]
    errors := [("api_testing_endpoints", "Endpoints must start with / or http"),
               ("security_testing_source_code", "source_code is required")] }

/-! ## Lifecycle theorems -/

/-- C1: the status field ranges over the five values of `Status` (its
carrier type) and every transition moves strictly forward along
PENDING→RUNNING→{COMPLETED|FAILED|CANCELLED}; no transition leaves a
terminal state, so on every valid observation history a terminal
status persists to all later observations. -/
theorem status_forward_and_terminal_absorbing :
    (∀ s t : Status, statusStep s t = true → s.rank < t.rank ∧ s.terminal = false) ∧
    (∀ (a : Status) (rest : List Status), validTrace (a :: rest) = true →
      a.terminal = true → ∀ b ∈ rest, b = a) := by
  constructor
  · intro s t h
    revert h
    cases s <;> cases t <;> decide
  · intro a rest
    induction rest generalizing a with
    | nil =>
      intro _ _ b hb
      cases hb
    | cons c rest ih =>
      intro hv hterm b hb
      have hv' : (a == c || statusStep a c) = true ∧ validTrace (c :: rest) = true := by
        simpa [validTrace, Bool.and_eq_true] using hv
      have hstep : statusStep a c = false := by
        revert hterm
        cases a <;> cases c <;> decide
      have hac : a = c := by
        have h1 := hv'.1
        rw [hstep, Bool.or_false] at h1
        exact eq_of_beq h1
      subst hac
      rcases List.mem_cons.mp hb with rfl | hb
      · rfl
      · exact ih a hv'.2 hterm b hb

/-- Witness for C1: a concrete valid trace whose third observation is
terminal; the theorem forces the fourth observation to coincide. -/
theorem status_forward_and_terminal_absorbing_witness :
    validTrace [Status.pending, Status.running, Status.failed, Status.failed] = true ∧
    Status.failed = Status.failed := by
  refine ⟨by decide, ?_⟩
  exact status_forward_and_terminal_absorbing.2 Status.failed [Status.failed]
    (by decide) (by decide) Status.failed (by simp)

/-- C2: in every state of the execution population reachable under any
interleaving of submissions, starts and finishes, the number of
RUNNING executions never exceeds the configured concurrency limit. -/
theorem running_never_exceeds_limit {limit : Nat} {l : List Status}
    (h : Reach limit l) : countRunning l ≤ limit := by
  have epr : (Status.pending == Status.running) = false := by decide
  have err : (Status.running == Status.running) = true := by decide
  induction h with
  | init => simp [countRunning]
  | step hR hS ih =>
    cases hS with
    | submit l₀ =>
      simpa [countRunning, List.countP_append, List.countP_cons, epr] using ih
    | start l₁ l₂ hgate =>
      have hpre : countRunning (l₁ ++ Status.pending :: l₂) =
          countRunning l₁ + countRunning l₂ := by
        simp [countRunning, List.countP_append, List.countP_cons, epr]
      have hpost : countRunning (l₁ ++ Status.running :: l₂) =
          countRunning l₁ + (countRunning l₂ + 1) := by
        simp [countRunning, List.countP_append, List.countP_cons, err]
      rw [hpre] at hgate
      rw [hpost]
      omega
    | finish l₁ l₂ s hterm =>
      have hns : (s == Status.running) = false := by
        revert hterm
        cases s <;> decide
      have hpre : countRunning (l₁ ++ Status.running :: l₂) =
          countRunning l₁ + (countRunning l₂ + 1) := by
        simp [countRunning, List.countP_append, List.countP_cons, err]
      have hpost : countRunning (l₁ ++ s :: l₂) =
          countRunning l₁ + countRunning l₂ := by
        simp [countRunning, List.countP_append, List.countP_cons, hns]
      rw [hpre] at ih
      rw [hpost]
      omega

/-- Witness for C2: a state holding one RUNNING execution, reached by
one submission followed by one slot acquisition under limit 2,
satisfies the bound. -/
theorem running_never_exceeds_limit_witness :
    countRunning [Status.running] ≤ 2 := by
  have h0 : Reach 2 [] := Reach.init
  have h1 : Reach 2 [Status.pending] := Reach.step h0 (OrchStep.submit [])
  have h2 : Reach 2 [Status.running] :=
    Reach.step h1 (OrchStep.start [] [] (by decide))
  exact running_never_exceeds_limit h2

/-- Sum of the four per-status counts over a test-case list. -/
theorem countP_status_partition (tcs : List TestCaseResult) :
    tcs.countP (fun t => t.status == TCStatus.passed) +
      tcs.countP (fun t => t.status == TCStatus.failed) +
      tcs.countP (fun t => t.status == TCStatus.skipped) +
      tcs.countP (fun t => t.status == TCStatus.error) = tcs.length := by
  induction tcs with
  | nil => rfl
  | cons t ts ih =>
    simp only [List.countP_cons, List.length_cons]
    cases h : t.status <;> simp [h] <;> omega

/-- C3: the derived counts of an execution record satisfy
`total_tests = len(test_cases)`, each count is the size of the
corresponding status class of `test_cases`, and the four counts sum to
`total_tests`. -/
theorem summary_counts_partition (tcs : List TestCaseResult) :
    (mkSummary tcs).total_tests = tcs.length ∧
    (mkSummary tcs).passed_tests =
      (tcs.filter (fun t => t.status == TCStatus.passed)).length ∧
    (mkSummary tcs).failed_tests =
      (tcs.filter (fun t => t.status == TCStatus.failed)).length ∧
    (mkSummary tcs).skipped_tests =
      (tcs.filter (fun t => t.status == TCStatus.skipped)).length ∧
    (mkSummary tcs).error_tests =
      (tcs.filter (fun t => t.status == TCStatus.error)).length ∧
    (mkSummary tcs).passed_tests + (mkSummary tcs).failed_tests +
        (mkSummary tcs).skipped_tests + (mkSummary tcs).error_tests =
      (mkSummary tcs).total_tests := by
  exact ⟨rfl, List.countP_eq_length_filter _ _, List.countP_eq_length_filter _ _,
    List.countP_eq_length_filter _ _, List.countP_eq_length_filter _ _,
    countP_status_partition tcs⟩

/-- C4: submitting with an `agent_type` the registry cannot resolve
fails synchronously with `UnknownAgentType` and leaves the stored
execution records unchanged. -/
theorem submit_unknown_agent_type (reg : Registry) (store : Store)
    (agent_type newId : String) (h : reg.resolve agent_type = none) :
    (submit reg store agent_type newId).1 =
      Except.error SubmitError.unknownAgentType ∧
    (submit reg store agent_type newId).2 = store := by
  simp [submit, h]

/-- Witness for C4: a registry holding only `api_testing` cannot
resolve `nonexistent_agent`; submission fails and the empty store is
unchanged. -/
theorem submit_unknown_agent_type_witness :
    (submit ⟨[("api_testing", "ApiTestingAgent")]⟩ ⟨[]⟩
        "nonexistent_agent" "exec-1").1 =
      Except.error SubmitError.unknownAgentType ∧
    (submit ⟨[("api_testing", "ApiTestingAgent")]⟩ ⟨[]⟩
        "nonexistent_agent" "exec-1").2 = (⟨[]⟩ : Store) := by
  exact submit_unknown_agent_type _ _ _ _ (by decide)

/-- C5: cancelling a terminal execution is a no-op on its record;
cancelling a non-terminal execution sets the cooperative flag, and at
the next stage boundary the pipeline stops — without running the
pending stage — and transitions to CANCELLED. -/
theorem cancel_terminal_noop_nonterminal_flag (r : ExecRecord) :
    (r.status.terminal = true → cancel r = r) ∧
    (r.status.terminal = false →
      (cancel r).cancelRequested = true ∧
      ∀ (f : ExecRecord → ExecRecord) (rest : List (ExecRecord → ExecRecord)),
        runPipeline (f :: rest) (cancel r) =
          { r with cancelRequested := true, status := Status.cancelled }) := by
  constructor
  · intro h
    simp [cancel, h]
  · intro h
    have hc : cancel r = { r with cancelRequested := true } := by
      simp [cancel, h]
    refine ⟨by rw [hc], fun f rest => ?_⟩
    rw [hc]
    simp [runPipeline, h]

/-- Witness for C5: cancelling a COMPLETED record leaves it intact;
cancelling a RUNNING record and reaching the next stage boundary
yields the CANCELLED record with the flag set, the stage unrun. -/
theorem cancel_terminal_noop_nonterminal_flag_witness :
    cancel (ExecRecord.mk "e1" "api_testing" Status.completed false []) =
      ExecRecord.mk "e1" "api_testing" Status.completed false [] ∧
    runPipeline [id] (cancel (ExecRecord.mk "e2" "api_testing" Status.running false [])) =
      ExecRecord.mk "e2" "api_testing" Status.cancelled true [] := by
  constructor
  · exact (cancel_terminal_noop_nonterminal_flag _).1 (by decide)
  · exact ((cancel_terminal_noop_nonterminal_flag
      (ExecRecord.mk "e2" "api_testing" Status.running false [])).2 (by decide)).2 id []

/-- C6: in a sequential batch with `continue_on_failure = false`, when
every item before the failing one terminates non-FAILED and one item
terminates FAILED, the returned mapping is exactly the identifiers of
the items up to and including the failing one — independent of the
items after it, which are never submitted. -/
theorem batch_sequential_failure_cut (runOne : BatchItem → String × Status)
    (pre : List BatchItem) (failing : BatchItem) (post : List BatchItem)
    (hpre : ∀ j ∈ pre, (runOne j).2 ≠ Status.failed)
    (hfail : (runOne failing).2 = Status.failed) :
    executeBatchSeq runOne false (pre ++ failing :: post) =
      (pre ++ [failing]).map (fun j => (j.agent_type, (runOne j).1)) := by
  induction pre with
  | nil => simp [executeBatchSeq, hfail]
  | cons j pre ih =>
    have hj : ((runOne j).2 == Status.failed) = false := by
      have hne := hpre j (List.mem_cons_self j pre)
      simpa [beq_iff_eq] using hne
    simp [executeBatchSeq, hj, ih (fun x hx => hpre x (List.mem_cons_of_mem j hx))]

/-- Witness for C6: the spec scenario — three items, the second always
FAILED; the mapping holds exactly items 1 and 2, item 3 untouched. -/
theorem batch_sequential_failure_cut_witness :
    executeBatchSeq
        (fun it => if it.agent_type == "agent2" then ("id2", Status.failed)
                   else ("id-" ++ it.agent_type, Status.completed)) false
        [⟨"agent1", []⟩, ⟨"agent2", []⟩, ⟨"agent3", []⟩] =
      [("agent1", "id-agent1"), ("agent2", "id2")] := by
  have h := batch_sequential_failure_cut
    (fun it => if it.agent_type == "agent2" then ("id2", Status.failed)
               else ("id-" ++ it.agent_type, Status.completed))
    [⟨"agent1", []⟩] ⟨"agent2", []⟩ [⟨"agent3", []⟩]
    (by decide) (by decide)
  simpa using h

/-! ## Marketplace theorems -/

/-- The check `epBad` unfolded to a proposition. -/
theorem epBad_iff (ep : String) :
    epBad ep = true ↔
      ep ≠ "" ∧ jsStartsWith ep "/" = false ∧ jsStartsWith ep "http" = false := by
  unfold epBad
  rw [Bool.and_eq_true, Bool.and_eq_true, Bool.not_eq_true', Bool.not_eq_true',
    Bool.not_eq_true', beq_eq_false_iff_ne]
  tauto

/-- C8: `validateInputs` reports the endpoints field invalid exactly
when the entered list holds a non-empty entry starting with neither
"/" nor "http"; inserting an empty-string entry anywhere never changes
the verdict. -/
theorem endpoints_invalid_characterization :
    (∀ eps : List String, (endpointsFieldInvalid eps = true ↔
      ∃ ep ∈ eps, ep ≠ "" ∧ jsStartsWith ep "/" = false ∧
        jsStartsWith ep "http" = false)) ∧
    (∀ l₁ l₂ : List String,
      endpointsFieldInvalid (l₁ ++ "" :: l₂) = endpointsFieldInvalid (l₁ ++ l₂)) := by
  constructor
  · intro eps
    unfold endpointsFieldInvalid
    rw [Bool.and_eq_true, decide_eq_true_eq, decide_eq_true_eq]
    constructor
    · rintro ⟨_, hfil⟩
      obtain ⟨ep, hep⟩ := List.exists_mem_of_length_pos hfil
      have h := List.mem_filter.mp hep
      exact ⟨ep, h.1, (epBad_iff ep).mp h.2⟩
    · rintro ⟨ep, hmem, hprop⟩
      refine ⟨List.length_pos.mpr (List.ne_nil_of_mem hmem), ?_⟩
      have hf : ep ∈ eps.filter epBad :=
        List.mem_filter.mpr ⟨hmem, (epBad_iff ep).mpr hprop⟩
      exact List.length_pos.mpr (List.ne_nil_of_mem hf)
  · intro l₁ l₂
    have h0 : epBad "" = false := by decide
    have hfil : (l₁ ++ "" :: l₂).filter epBad = (l₁ ++ l₂).filter epBad := by
      simp [List.filter_append, List.filter_cons, h0]
    unfold endpointsFieldInvalid
    rw [hfil]
    rcases Nat.eq_zero_or_pos ((l₁ ++ l₂).filter epBad).length with h | h
    · have hdf : decide (0 < ((l₁ ++ l₂).filter epBad).length) = false := by
        rw [h]
        decide
      rw [hdf, Bool.and_false, Bool.and_false]
    · obtain ⟨ep, hep⟩ := List.exists_mem_of_length_pos h
      have hmem : ep ∈ l₁ ++ l₂ := (List.mem_filter.mp hep).1
      have h1 : 0 < (l₁ ++ "" :: l₂).length := by
        simp [List.length_append]
      have h2 : 0 < (l₁ ++ l₂).length :=
        List.length_pos.mpr (List.ne_nil_of_mem hmem)
      rw [decide_eq_true h1, decide_eq_true h2, decide_eq_true h]

/-- Witness for C8: the list `["foo"]` — a non-empty entry starting
with neither "/" nor "http" — is reported invalid. -/
theorem endpoints_invalid_characterization_witness :
    endpointsFieldInvalid ["foo"] = true := by
  exact (endpoints_invalid_characterization.1 ["foo"]).mpr
    ⟨"foo", by simp, by decide, by decide, by decide⟩

/-- Counterexample to C9 as stated: on the input `""` the earlier
parser returns `[""]` while the current parser returns `[]`, so the
two are not extensionally equal. -/
theorem parse_versions_differ :
    parseEndpointsOld "" ≠ parseEndpointsNew "" := by decide

/-- C9 (amended): the two endpoint parsers agree on every input string
all of whose comma-separated segments trim to a non-empty string. -/
theorem parse_versions_agree_without_empty_segments (s : String)
    (h : ∀ t ∈ parseEndpointsOld s, t ≠ "") :
    parseEndpointsOld s = parseEndpointsNew s := by
  have hnew : parseEndpointsNew s
      = (parseEndpointsOld s).filter (fun t => decide (0 < jsLength t)) := rfl
  rw [hnew]
  symm
  refine List.filter_eq_self.mpr ?_
  intro t ht
  have hne := h t ht
  have hd : t.data ≠ [] := by
    intro hnil
    apply hne
    cases t with
    | mk data =>
      simp at hnil
      subst hnil
      rfl
  simp only [jsLength, decide_eq_true_eq]
  exact List.length_pos.mpr hd

/-- Witness for C9 (amended): on `"a, b"` every trimmed segment is
non-empty and the two parsers agree. -/
theorem parse_versions_agree_witness :
    parseEndpointsOld "a, b" = parseEndpointsNew "a, b" :=
  parse_versions_agree_without_empty_segments "a, b" (by decide)

/-- A bad required-input value (absent, trimming to empty, or the
empty array) makes `requiredError` record an entry keyed by the agent
type and input name. -/
theorem requiredError_of_bad (t r : String) (v : Option JValue)
    (h : v = none ∨ (∃ s, v = some (JValue.str s) ∧ jsTrim s = "") ∨
      v = some (JValue.arr [])) :
    ∃ msg, requiredError t r v = some (t ++ "_" ++ r, msg) := by
  rcases h with rfl | ⟨s, rfl, hs⟩ | rfl
  · exact ⟨r ++ " is required", rfl⟩
  · by_cases h0 : s = ""
    · subst h0
      exact ⟨r ++ " is required", by simp [requiredError]⟩
    · exact ⟨r ++ " cannot be empty", by simp [requiredError, h0, hs]⟩
  · exact ⟨r ++ " must have at least one item", by simp [requiredError]⟩

/-- An error entry produced for a selected agent found in the catalog
appears in the `validateInputs` output. -/
theorem mem_validateInputs_of (st : MarketState) (A : String)
    (agent : AgentMetadata) (e : String × String)
    (hA : A ∈ st.selected)
    (hfind : st.agents.find? (fun a => a.agent_type == A) = some agent)
    (he : e ∈ validateAgent agent (st.inputsFor A)) :
    e ∈ validateInputs st := by
  unfold validateInputs
  refine List.mem_flatMap.mpr ⟨A, hA, ?_⟩
  simp only [hfind]
  exact he

/-- An agent whose required inputs are all present and non-empty and
whose entered endpoints are well-formed contributes no error entry. -/
theorem validateAgent_eq_nil (agent : AgentMetadata) (ai : AgentInput)
    (hreq : ∀ r ∈ agent.required_inputs,
      ∃ v, getField ai r = some v ∧
        (∀ s, v = JValue.str s → jsTrim s ≠ "") ∧
        (∀ xs, v = JValue.arr xs → xs ≠ []))
    (heps : ∀ eps, ai.endpoints = some eps →
      ∀ ep ∈ eps, ep ≠ "" →
        (jsStartsWith ep "/" = true ∨ jsStartsWith ep "http" = true)) :
    validateAgent agent ai = [] := by
  unfold validateAgent
  refine List.append_eq_nil.mpr ⟨?_, ?_⟩
  · refine List.filterMap_eq_nil_iff.mpr ?_
    intro r hr
    obtain ⟨v, hv, hstr, harr⟩ := hreq r hr
    rw [hv]
    cases v with
    | str s =>
      have h1 : jsTrim s ≠ "" := hstr s rfl
      have h0 : s ≠ "" := by
        intro h
        apply h1
        subst h
        rfl
      simp [requiredError, h0, h1]
    | arr xs =>
      have h2 : xs.isEmpty = false :=
        List.isEmpty_eq_false.mpr (harr xs rfl)
      simp [requiredError, h2]
  · cases he : ai.endpoints with
    | none => rfl
    | some eps =>
      have hfe : eps.filter epBad = [] := by
        refine List.filter_eq_nil_iff.mpr ?_
        intro ep hep hbadep
        obtain ⟨hne, h1, h2⟩ := (epBad_iff ep).mp hbadep
        rcases heps eps he ep hep hne with h | h
        · rw [h] at h1
          cases h1
        · rw [h] at h2
          cases h2
      have hinv : endpointsFieldInvalid eps = false := by
        unfold endpointsFieldInvalid
        rw [hfe]
        simp
      simp [hinv]

/-- C7 (amended): provided at least one agent is selected — (a) when a
selected catalog agent has a required input that is absent, trims to
the empty string, or is the empty array, the execute action does not
submit (the mutation is never called) and an error entry keyed by that
agent type and input name is recorded; (b) when every required input
of every selected catalog agent is present and non-empty and every
entered endpoint is well-formed, validation succeeds and the requests
are submitted in selection order. -/
theorem validation_gates_submission (st : MarketState)
    (hne : st.selected ≠ []) :
    (∀ A agent r, A ∈ st.selected →
      st.agents.find? (fun a => a.agent_type == A) = some agent →
      r ∈ agent.required_inputs →
      (getField (st.inputsFor A) r = none ∨
        (∃ s, getField (st.inputsFor A) r = some (JValue.str s) ∧ jsTrim s = "") ∨
        getField (st.inputsFor A) r = some (JValue.arr [])) →
      ((handleExecute st).isSubmit = false ∧
        (∃ msg, (A ++ "_" ++ r, msg) ∈ validateInputs st) ∧
        handleExecute st = Outcome.toastValidation (validateInputs st))) ∧
    ((∀ A agent, A ∈ st.selected →
        st.agents.find? (fun a => a.agent_type == A) = some agent →
        ((∀ r ∈ agent.required_inputs,
            ∃ v, getField (st.inputsFor A) r = some v ∧
              (∀ s, v = JValue.str s → jsTrim s ≠ "") ∧
              (∀ xs, v = JValue.arr xs → xs ≠ [])) ∧
          (∀ eps, (st.inputsFor A).endpoints = some eps →
            ∀ ep ∈ eps, ep ≠ "" →
              (jsStartsWith ep "/" = true ∨ jsStartsWith ep "http" = true)))) →
      (validateInputs st = [] ∧
        handleExecute st =
          Outcome.submitRequests (st.selected.map (fun t => (t, st.inputsFor t))))) := by
  have hselB : st.selected.isEmpty = false := List.isEmpty_eq_false.mpr hne
  constructor
  · intro A agent r hA hfind hr hbadv
    have hAt : agent.agent_type = A := by
      have h := List.find?_some hfind
      simpa [beq_iff_eq] using h
    obtain ⟨msg, hmsg⟩ :=
      requiredError_of_bad agent.agent_type r (getField (st.inputsFor A) r) hbadv
    have he : (agent.agent_type ++ "_" ++ r, msg) ∈
        validateAgent agent (st.inputsFor A) := by
      unfold validateAgent
      refine List.mem_append_left _ ?_
      exact List.mem_filterMap.mpr ⟨r, hr, hmsg⟩
    have hmemV : (A ++ "_" ++ r, msg) ∈ validateInputs st := by
      rw [← hAt]
      exact mem_validateInputs_of st A agent _ hA hfind he
    have hvB : (validateInputs st).isEmpty = false :=
      List.isEmpty_eq_false.mpr (List.ne_nil_of_mem hmemV)
    have hhe : handleExecute st = Outcome.toastValidation (validateInputs st) := by
      simp [handleExecute, hselB, hvB]
    exact ⟨by rw [hhe]; rfl, ⟨msg, hmemV⟩, hhe⟩
  · intro hgood
    have hv : validateInputs st = [] := by
      unfold validateInputs
      refine List.flatMap_eq_nil_iff.mpr ?_
      intro t ht
      cases hfind : st.agents.find? (fun a => a.agent_type == t) with
      | none => simp only [hfind]
      | some agent =>
        obtain ⟨hreq, heps⟩ := hgood t agent ht hfind
        simp only [hfind]
        exact validateAgent_eq_nil agent (st.inputsFor t) hreq heps
    refine ⟨hv, ?_⟩
    simp [handleExecute, hselB, hv]

/-- Counterexample to C7 as stated: with no agent selected the part-(b)
antecedent holds vacuously — validation produces no errors — yet the
execute action returns the selection toast and never submits. -/
theorem validation_gates_submission_cex :
    validateInputs noSelectionState = [] ∧
    handleExecute noSelectionState = Outcome.toastNoAgents ∧
    (handleExecute noSelectionState).isSubmit = false := by decide

/-- Witness for C7 (amended): an empty-array required `endpoints` input
blocks submission with a recorded error; the well-formed input is
submitted. -/
theorem validation_gates_submission_witness :
    (handleExecute badInputState).isSubmit = false ∧
    handleExecute badInputState =
      Outcome.toastValidation (validateInputs badInputState) ∧
    validateInputs goodInputState = [] ∧
    handleExecute goodInputState = Outcome.submitRequests
      [("api_testing", goodInputState.inputsFor "api_testing")] := by
  have hbad := (validation_gates_submission badInputState (by decide)).1
    "api_testing" { agent_type := "api_testing", required_inputs := ["endpoints"] }
    "endpoints" (by decide) (by decide) (by decide)
    (Or.inr (Or.inr (by decide)))
  have hg : ∀ A agent, A ∈ goodInputState.selected →
      goodInputState.agents.find? (fun a => a.agent_type == A) = some agent →
      ((∀ r ∈ agent.required_inputs,
          ∃ v, getField (goodInputState.inputsFor A) r = some v ∧
            (∀ s, v = JValue.str s → jsTrim s ≠ "") ∧
            (∀ xs, v = JValue.arr xs → xs ≠ [])) ∧
        (∀ eps, (goodInputState.inputsFor A).endpoints = some eps →
          ∀ ep ∈ eps, ep ≠ "" →
            (jsStartsWith ep "/" = true ∨ jsStartsWith ep "http" = true))) := by
    intro A agent hA hfind
    have hA' : A = "api_testing" := by simpa [goodInputState] using hA
    subst hA'
    have hfind' : goodInputState.agents.find? (fun a => a.agent_type == "api_testing") =
        some { agent_type := "api_testing", required_inputs := ["endpoints"],
               optional_inputs := [] } := by decide
    rw [hfind'] at hfind
    injection hfind with hag
    subst hag
    constructor
    · intro r hr
      have hr' : r = "endpoints" := by simpa using hr
      subst hr'
      refine ⟨JValue.arr ["/api/users"], by decide, ?_, ?_⟩
      · intro s hs
        simp at hs
      · intro xs hxs
        injection hxs with h
        subst h
        decide
    · intro eps heps ep hep hne
      have hend : (goodInputState.inputsFor "api_testing").endpoints =
          some ["/api/users"] := by decide
      rw [hend] at heps
      injection heps with h
      subst h
      have hep' : ep = "/api/users" := by simpa using hep
      subst hep'
      left
      decide
  have hgood := (validation_gates_submission goodInputState (by decide)).2 hg
  exact ⟨hbad.1, hbad.2.2, hgood.1, hgood.2⟩

/-- Dropping the entries keyed `A` from an association list does not
change the lookup of a different key `B`. -/
theorem find?_key_filter_ne {β : Type} (l : List (String × β)) (A B : String)
    (hAB : A ≠ B) :
    (l.filter (fun p => !(p.1 == A))).find? (fun p => p.1 == B) =
      l.find? (fun p => p.1 == B) := by
  induction l with
  | nil => rfl
  | cons p l ih =>
    rcases eq_or_ne p.1 A with hpA | hpA
    · have hne : (p.1 == B) = false := by
        rw [hpA]
        exact beq_eq_false_iff_ne.mpr hAB
      rw [List.filter_cons_of_neg (by simp [hpA]),
        List.find?_cons_of_neg _ (by simp [hne]), ih]
    · rw [List.filter_cons_of_pos (by simp [hpA])]
      rcases eq_or_ne p.1 B with hpB | hpB
      · rw [List.find?_cons_of_pos _ (by simp [hpB]),
          List.find?_cons_of_pos _ (by simp [hpB])]
      · rw [List.find?_cons_of_neg _ (by simp [hpB]),
          List.find?_cons_of_neg _ (by simp [hpB]), ih]

/-- Counterexample to C10 as stated: deselecting `"api"` also deletes
the error entry of the distinct selected agent `"api2"`, because the
error-clearing test uses `key.startsWith(agentType)`. -/
theorem toggle_deselect_frame_cex :
    ("api2_endpoints", "Endpoints must start with / or http") ∈
      prefixErrorState.errors ∧
    "api2" ∈ prefixErrorState.selected ∧
    (toggleAgent prefixErrorState "api").errors = [] := by decide

/-- C10 (amended): deselecting a selected agent `A` removes `A` from
the selection and `A`'s inputs entry, leaving every other agent's
selection membership and inputs entry unchanged; the error entries
removed are exactly those whose key starts with `A` — in particular
another agent `B`'s error entries survive whenever `B`'s keys do not
start with `A`. -/
theorem toggle_deselect_frame (st : MarketState) (A B : String)
    (hA : st.selected.contains A = true) (hAB : A ≠ B) :
    A ∉ (toggleAgent st A).selected ∧
    (B ∈ (toggleAgent st A).selected ↔ B ∈ st.selected) ∧
    (toggleAgent st A).inputs.find? (fun p => p.1 == A) = none ∧
    (toggleAgent st A).inputs.find? (fun p => p.1 == B) =
      st.inputs.find? (fun p => p.1 == B) ∧
    (∀ k v, (k, v) ∈ (toggleAgent st A).errors ↔
      ((k, v) ∈ st.errors ∧ jsStartsWith k A = false)) := by
  have htog : toggleAgent st A = { st with
      selected := st.selected.filter (fun t => !(t == A)),
      inputs := st.inputs.filter (fun p => !(p.1 == A)),
      errors := st.errors.filter (fun p => !(jsStartsWith p.1 A)) } := by
    unfold toggleAgent
    rw [hA, if_pos rfl]
  rw [htog]
  refine ⟨?_, ?_, ?_, ?_, ?_⟩
  · intro hmem
    have h := (List.mem_filter.mp hmem).2
    simp at h
  · constructor
    · intro h
      exact (List.mem_filter.mp h).1
    · intro h
      exact List.mem_filter.mpr ⟨h, by simp [Ne.symm hAB]⟩
  · refine List.find?_eq_none.mpr ?_
    intro p hp
    have h := (List.mem_filter.mp hp).2
    simpa using h
  · exact find?_key_filter_ne st.inputs A B hAB
  · intro k v
    constructor
    · intro h
      have h' := List.mem_filter.mp h
      exact ⟨h'.1, by simpa using h'.2⟩
    · rintro ⟨h1, h2⟩
      exact List.mem_filter.mpr ⟨h1, by simp [h2]⟩

/-- Witness for C10 (amended): deselecting `api_testing` in a state
with a second, unrelated agent `security_testing` preserves the
latter's selection, inputs entry and error entry. -/
theorem toggle_deselect_frame_witness :
    "api_testing" ∉ (toggleAgent twoAgentState "api_testing").selected ∧
    ("security_testing" ∈ (toggleAgent twoAgentState "api_testing").selected ↔
      "security_testing" ∈ twoAgentState.selected) ∧
    (toggleAgent twoAgentState "api_testing").inputs.find?
      (fun p => p.1 == "api_testing") = none ∧
    (toggleAgent twoAgentState "api_testing").inputs.find?
        (fun p => p.1 == "security_testing") =
      twoAgentState.inputs.find? (fun p => p.1 == "security_testing") ∧
    (∀ k v, (k, v) ∈ (toggleAgent twoAgentState "api_testing").errors ↔
      ((k, v) ∈ twoAgentState.errors ∧ jsStartsWith k "api_testing" = false)) :=
  toggle_deselect_frame twoAgentState "api_testing" "security_testing"
    (by decide) (by decide)

end QualityForce
